import Mathlib

/-!
Shallow embedding of the authentication / profile / resume layer
(AuthContext and Dashboard components) of the resume-tailor application,
together with theorems settling the specification's claims about it.

The application delegates all persistence to an external identity provider
and relational store; those collaborators appear here as explicit
parameters (the provider's responses) or as a modelled table
(`tableUpdate` / `tableInsert`, following the spec's description of the
external store's select/insert/update contract in section 6).
-/

namespace ResumeTailor

/-- A JavaScript runtime value as far as the error paths care: either an
Error instance carrying a message, a plain string, or some other value. -/
inductive JsValue where
  | errorObj (msg : String)
  | str (s : String)
  | other
  deriving Repr, DecidableEq

/-- Whether a value satisfies the source's `instanceof Error` test. -/
def isErrorObj : JsValue → Bool
  | .errorObj _ => true
  | _ => false

/-- The authenticated user mirrored from the identity provider: id, optional
email, and the optional `user_metadata` fields the code reads. -/
structure UserT where
  id : String
  email : Option String
  metaName : Option String
  metaAvatarUrl : Option String
  deriving Repr, DecidableEq

/-- A provider session; the code only reads its `user` field. -/
structure SessionT where
  user : UserT
  deriving Repr, DecidableEq

/-- A row of the `profiles` table, timestamps as abstract instants. -/
structure ProfileRow where
  id : String
  name : String
  avatar_url : String
  created_at : Nat
  updated_at : Nat
  deriving Repr, DecidableEq

/-- A provider (PostgREST-style) error, identified by its code string. -/
structure PGError where
  code : String
  deriving Repr, DecidableEq

/-- JavaScript `a || b` for an optional string `a`: the empty string and an
absent value are both falsy, so they fall through to `b`. -/
def jsOrStr (a : Option String) (b : String) : String :=
  match a with
  | some s => if s = "" then b else s
  | none => b

/-- JavaScript `e.split(sep)[0]`: the part of the string before the first
occurrence of the separator (the whole string when the separator is absent). -/
def splitHead (sep : Char) (e : String) : String :=
  String.mk (e.toList.takeWhile (fun c => !(c == sep)))

/-! ## AuthContext: updateProfile (call-trace view)

`updateProfile(name, avatarUrl?)` first issues an update of the profile row
filtered by the current user id; when that update fails with code PGRST116 it
issues an insert with the same values.  The trace view records the store
operations issued, with the store's responses to the update and the insert
supplied as parameters `updErr` and `insErr`. -/

/-- A store operation issued against the `profiles` table. -/
inductive ProfilesOp where
  | update (uid name avatar_url : String) (updated_at : Nat)
  | insert (uid name avatar_url : String) (created_at updated_at : Nat)
  deriving Repr, DecidableEq

/-- Whether an issued operation is an insert. -/
def ProfilesOp.isInsert : ProfilesOp → Bool
  | .insert _ _ _ _ _ => true
  | _ => false

/-- The avatar_url value carried by an issued operation. -/
def ProfilesOp.avatar : ProfilesOp → String
  | .update _ _ a _ => a
  | .insert _ _ a _ _ => a

/-- The error value `updateProfile` can place in its result: the plain string
of the no-user guard, or a store error object. -/
inductive UPError where
  | strErr (s : String)
  | pgErr (e : PGError)
  deriving Repr, DecidableEq

/-- Result of one `updateProfile` call: the operations issued against the
store, in order, and the returned error field. -/
structure UPResult where
  ops : List ProfilesOp
  error : Option UPError
  deriving Repr, DecidableEq

/-- Shallow embedding of `updateProfile` (AuthContext, lines 358-394): guard
on a missing user, issue the update, and on error code PGRST116 issue the
fallback insert, returning the insert's error; otherwise return the update's
error.  `t` is the instant `new Date().toISOString()` denotes during the
call; `updErr` and `insErr` are the store's responses. -/
def updateProfile (user : Option UserT) (name : String) (avatarUrl : Option String)
    (t : Nat) (updErr insErr : Option PGError) : UPResult :=
  match user with
  | none => { ops := [], error := some (.strErr "No user found") }
  | some u =>
    let av := jsOrStr avatarUrl ""
    let upd := ProfilesOp.update u.id name av t
    match updErr with
    | some e =>
      if e.code = "PGRST116" then
        { ops := [upd, .insert u.id name av t t], error := insErr.map .pgErr }
      else
        { ops := [upd], error := some (.pgErr e) }
    | none => { ops := [upd], error := none }

/-! ## The modelled external store, and updateProfile run against it

Modelled from the spec (section 6, relational store): update is scoped by an
equality filter on the id column and reports the "no rows" condition PGRST116
when no row matches; insert appends a row, failing with a duplicate-key error
when a row with the same id already exists. -/

/-- The rewrite an update with payload (n, a, t) applies to a row matching
the id filter: name, avatar_url and updated_at are set, id and created_at
are kept. -/
def profWrite (uid n a : String) (t : Nat) (r : ProfileRow) : ProfileRow :=
  if r.id = uid then { r with name := n, avatar_url := a, updated_at := t } else r

/-- Modelled from the spec: the store's `update ... eq(id, uid)` call on the
`profiles` table.  Rewrites every matching row's name, avatar_url and
updated_at; reports PGRST116 when no row matches. -/
def tableUpdate (tbl : List ProfileRow) (uid n a : String) (t : Nat) :
    List ProfileRow × Option PGError :=
  if tbl.any (fun r => r.id = uid) then
    (tbl.map (profWrite uid n a t), none)
  else
    (tbl, some ⟨"PGRST116"⟩)

/-- Modelled from the spec: the store's insert into the `profiles` table,
which fails with the duplicate-key error 23505 when the id already exists. -/
def tableInsert (tbl : List ProfileRow) (row : ProfileRow) :
    List ProfileRow × Option PGError :=
  if tbl.any (fun r => r.id = row.id) then
    (tbl, some ⟨"23505"⟩)
  else
    (row :: tbl, none)

/-- First profile row for a given id, as the single-row fetch would see it. -/
def findProfile (tbl : List ProfileRow) (uid : String) : Option ProfileRow :=
  tbl.find? (fun r => r.id = uid)

/-- The control flow of `updateProfile` (AuthContext, lines 358-394) run
against the modelled table: issue the update, and on PGRST116 fall back to
the insert.  Returns the final table, the operations issued, and the error. -/
def runUpdateProfile (tbl : List ProfileRow) (user : Option UserT) (name : String)
    (avatarUrl : Option String) (t : Nat) :
    List ProfileRow × List ProfilesOp × Option UPError :=
  match user with
  | none => (tbl, [], some (.strErr "No user found"))
  | some u =>
    let av := jsOrStr avatarUrl ""
    let upd := ProfilesOp.update u.id name av t
    let res1 := tableUpdate tbl u.id name av t
    match res1.2 with
    | some e =>
      if e.code = "PGRST116" then
        let res2 := tableInsert res1.1 ⟨u.id, name, av, t, t⟩
        (res2.1, [upd, .insert u.id name av t t], res2.2.map .pgErr)
      else
        (res1.1, [upd], some (.pgErr e))
    | none => (res1.1, [upd], none)

/-! ## AuthContext: signUp, catch handlers, session state -/

/-- Outcome of an awaited provider call: a data payload, a provider error
object, or a thrown exception. -/
inductive ProviderOutcome where
  | ok (data : String)
  | err (e : JsValue)
  | thrown (v : JsValue)
  deriving Repr, DecidableEq

/-- The `{error, data}` object returned by `signUp`; `data = none` represents
the absence of the data field. -/
structure SignUpResult where
  error : Option JsValue
  data : Option String
  deriving Repr, DecidableEq

/-- The normalization both signUp and signIn apply to a caught value: keep it
when it is an Error instance, otherwise replace it by a fresh Error carrying
the message "Unknown error". -/
def normalizeErr (v : JsValue) : JsValue :=
  match v with
  | .errorObj m => .errorObj m
  | _ => .errorObj "Unknown error"

/-- Shallow embedding of `signUp` (AuthContext, lines 292-316): a provider
error is returned with no data field; success returns a null error and the
data; a thrown value is normalized to an Error. -/
def signUp (outcome : ProviderOutcome) : SignUpResult :=
  match outcome with
  | .ok d => { error := none, data := some d }
  | .err e => { error := some e, data := none }
  | .thrown v => { error := some (normalizeErr v), data := none }

/-- signUp's catch handler (lines 312-315): normalizes to an Error. -/
def signUpCatch (v : JsValue) : JsValue := normalizeErr v

/-- signIn's catch handler (lines 332-334): normalizes to an Error. -/
def signInCatch (v : JsValue) : JsValue := normalizeErr v

/-- signInWithMagicLink's catch handler (lines 346-348): `return { error }`
with the raw caught value, no normalization. -/
def magicLinkCatch (v : JsValue) : JsValue := v

/-- updateProfile's catch handler (lines 390-393): `return { error }` with
the raw caught value, no normalization. -/
def updateProfileCatch (v : JsValue) : JsValue := v

/-- Whether the body of `signOut` (lines 351-356) is wrapped in try/catch:
it is not; the provider call's rejection would propagate to the caller. -/
def signOutHasCatch : Bool := false

/-- The AuthProvider's local component state. -/
structure LocalState where
  user : Option UserT
  session : Option SessionT
  loading : Bool
  deriving Repr, DecidableEq

/-- A set-state call the AuthProvider can issue. -/
inductive StateAction where
  | setUser (u : Option UserT)
  | setSession (s : Option SessionT)
  | setLoading (b : Bool)
  deriving Repr, DecidableEq

/-- Effect of one set-state call. -/
def applyAction (st : LocalState) : StateAction → LocalState
  | .setUser u => { st with user := u }
  | .setSession s => { st with session := s }
  | .setLoading b => { st with loading := b }

/-- Apply a list of set-state calls in order. -/
def runActions (st : LocalState) (acts : List StateAction) : LocalState :=
  acts.foldl applyAction st

/-- The set-state calls `signOut` (lines 351-356) issues synchronously: its
body only awaits the provider's sign-out and logs an eventual error, so it
issues none. -/
def signOutActions : List StateAction := []

/-- The set-state calls of the `onAuthStateChange` subscription handler
(lines 281-287): `setSession(session)`, `setUser(session?.user ?? null)`,
`setLoading(false)`. -/
def authChangeActions (s : Option SessionT) : List StateAction :=
  [.setSession s,
   .setUser (match s with | some ss => some ss.user | none => none),
   .setLoading false]

/-! ## Dashboard: profile synthesis, resume list, edit handler -/

/-- The default profile name synthesized by `fetchUserData` (Dashboard.tsx,
line 59): `user.user_metadata?.name || user.email?.split(at)[0] || "User"`,
with JavaScript truthiness at each `||`. -/
def defaultName (u : UserT) : String :=
  jsOrStr u.metaName (jsOrStr (u.email.map (splitHead (Char.ofNat 64))) "User")

/-- The default avatar synthesized by `fetchUserData` (Dashboard.tsx,
line 60): `user.user_metadata?.avatar_url || ""`. -/
def defaultAvatar (u : UserT) : String :=
  jsOrStr u.metaAvatarUrl ""

/-- Outcome of the single-row profile fetch. -/
inductive FetchOutcome where
  | ok (row : ProfileRow)
  | err (e : PGError)
  deriving Repr, DecidableEq

/-- State and trace left by the profile half of `fetchUserData`. -/
structure DashProfileResult where
  inserts : List ProfileRow
  profile : Option ProfileRow
  newName : String
  deriving Repr, DecidableEq

/-- Shallow embedding of the profile half of `fetchUserData` (Dashboard.tsx,
lines 44-75): adopt a fetched row; on error code PGRST116 synthesize the
default row, attempt exactly one insert, and adopt the inserted row when the
insert succeeded; on any other error leave the state unchanged.  `insErr` is
the store's response to the insert and `t` the current instant. -/
def fetchUserDataProfile (u : UserT) (outcome : FetchOutcome) (t : Nat)
    (insErr : Option PGError) (prof0 : Option ProfileRow) (name0 : String) :
    DashProfileResult :=
  match outcome with
  | .ok row => { inserts := [], profile := some row, newName := jsOrStr (some row.name) "" }
  | .err e =>
    if e.code = "PGRST116" then
      let newRow : ProfileRow := ⟨u.id, defaultName u, defaultAvatar u, t, t⟩
      match insErr with
      | none => { inserts := [newRow], profile := some newRow,
                  newName := jsOrStr (some newRow.name) "" }
      | some _ => { inserts := [newRow], profile := prof0, newName := name0 }
    else
      { inserts := [], profile := prof0, newName := name0 }

/-- The name the Dashboard header renders (Dashboard.tsx, line 148):
`profile?.name || "User"`. -/
def displayedName (profile : Option ProfileRow) : String :=
  jsOrStr (profile.map ProfileRow.name) "User"

/-- A row of the `resumes` table (Dashboard.tsx, lines 15-27), with
`created_at` as an abstract instant. -/
structure Resume where
  id : Nat
  user_id : String
  original_file_name : String
  enhanced_file_name : Option String
  storage_path : String
  file_url : String
  file_size : Nat
  file_type : String
  job_description : Option String
  status : String
  created_at : Nat
  deriving Repr, DecidableEq

/-- Sorted by `created_at` descending: every element is no later than each
element before it. -/
def sortedDesc (l : List Resume) : Prop :=
  l.Pairwise (fun a b => b.created_at ≤ a.created_at)

/-- Insert a resume into a descending-sorted list, keeping the order. -/
def insertDesc (r : Resume) : List Resume → List Resume
  | [] => [r]
  | x :: xs => if x.created_at ≤ r.created_at then r :: x :: xs else x :: insertDesc r xs

/-- The resume fetch (Dashboard.tsx, lines 78-82): the store returns the
rows ordered by `created_at` with `ascending: false`, modelled as sorting
the user's rows descending. -/
def fetchResumes (rows : List Resume) : List Resume :=
  rows.foldr insertDesc []

/-- `handleUploadSuccess` (Dashboard.tsx, lines 118-121): the new resume is
prepended to the in-memory list, with no re-fetch. -/
def handleUploadSuccess (newResume : Resume) (resumes : List Resume) : List Resume :=
  newResume :: resumes

/-- JavaScript truthiness of the error value `updateProfile` returned:
null is falsy, a string is truthy when non-empty, an error object is truthy. -/
def errTruthy : Option UPError → Bool
  | none => false
  | some (.strErr s) => !(s == "")
  | some (.pgErr _) => true

/-- Outcome of the awaited `updateProfile` call as `handleUpdateProfile`
sees it: a returned error field, or a thrown value. -/
inductive CallOutcome where
  | returned (e : Option UPError)
  | threw (v : JsValue)
  deriving Repr, DecidableEq

/-- Shallow embedding of `handleUpdateProfile` (Dashboard.tsx, lines
99-112): when the call returns a falsy error, apply the new name to the
in-memory profile and leave edit mode; on a truthy error or a thrown value,
leave both unchanged. -/
def handleUpdateProfile (res : CallOutcome) (profile : Option ProfileRow)
    (newName : String) (editing : Bool) : Option ProfileRow × Bool :=
  match res with
  | .returned e =>
    if errTruthy e then (profile, editing)
    else ((profile.map fun p => { p with name := newName }), false)
  | .threw _ => (profile, editing)

/-! ## Claim-side name derivations (for comparison with `defaultName`) -/

/-- The name-derivation rule as the claim words it: the metadata name when
present, else the part of the email before the first at-sign when the email
is present, else the literal "User". -/
def defaultNameClaimed (u : UserT) : String :=
  match u.metaName with
  | some s => s
  | none =>
    match u.email with
    | some e => splitHead (Char.ofNat 64) e
    | none => "User"

/-- Email local part when present and non-empty, else "User". -/
def emailOrUser : Option String → String
  | some e => if splitHead (Char.ofNat 64) e = "" then "User" else splitHead (Char.ofNat 64) e
  | none => "User"

/-- The amended name-derivation rule: the metadata name when present and
non-empty, else the part of the email before the first at-sign when the
email is present and that part is non-empty, else the literal "User". -/
def defaultNameAmended (u : UserT) : String :=
  match u.metaName with
  | some s => if s = "" then emailOrUser u.email else s
  | none => emailOrUser u.email

/-! ## Helper lemmas -/

/-- Characterization of `runUpdateProfile` for an authenticated user: when a
row with the user id exists the update branch rewrites it; otherwise the
PGRST116 fallback inserts the fresh row, and both branches succeed. -/
theorem runUpdateProfile_some_eq (tbl : List ProfileRow) (u : UserT) (n : String)
    (a : Option String) (t : Nat) :
    runUpdateProfile tbl (some u) n a t =
      if tbl.any (fun r => r.id = u.id) then
        (tbl.map (profWrite u.id n (jsOrStr a "") t),
         [.update u.id n (jsOrStr a "") t], none)
      else
        (⟨u.id, n, jsOrStr a "", t, t⟩ :: tbl,
         [.update u.id n (jsOrStr a "") t, .insert u.id n (jsOrStr a "") t t],
         none) := by
  by_cases h : tbl.any (fun r => r.id = u.id)
  · simp [runUpdateProfile, tableUpdate, h]
  · simp [runUpdateProfile, tableUpdate, tableInsert, h]

/-- The update rewrite keeps the row id. -/
theorem profWrite_id (uid n a : String) (t : Nat) (r : ProfileRow) :
    (profWrite uid n a t r).id = r.id := by
  unfold profWrite; split <;> rfl

/-- Fetching a row by id commutes with the update rewrite over the table. -/
theorem findProfile_map_profWrite (tbl : List ProfileRow) (uid n a : String) (t : Nat) :
    findProfile (tbl.map (profWrite uid n a t)) uid =
      (findProfile tbl uid).map (profWrite uid n a t) := by
  induction tbl with
  | nil => rfl
  | cons x xs ih =>
    simp only [findProfile, List.map_cons, List.find?_cons] at *
    by_cases h : x.id = uid
    · simp [profWrite_id, h]
    · simp [profWrite_id, h, ih]

/-- Membership in an order-preserving insertion. -/
theorem mem_insertDesc (x r : Resume) (l : List Resume) :
    x ∈ insertDesc r l ↔ x = r ∨ x ∈ l := by
  induction l with
  | nil => simp [insertDesc]
  | cons y ys ih =>
    simp only [insertDesc]
    split
    · simp [List.mem_cons]
    · simp only [List.mem_cons, ih]
      tauto

/-- Inserting into a descending-sorted list keeps it descending-sorted. -/
theorem sortedDesc_insertDesc (r : Resume) (l : List Resume) (h : sortedDesc l) :
    sortedDesc (insertDesc r l) := by
  induction l with
  | nil => unfold sortedDesc insertDesc; exact List.pairwise_singleton _ _
  | cons x xs ih =>
    unfold sortedDesc at h ⊢
    rcases List.pairwise_cons.mp h with ⟨hx, hxs⟩
    simp only [insertDesc]
    split
    case isTrue hle =>
      refine List.pairwise_cons.mpr ⟨?_, h⟩
      intro b hb
      rcases List.mem_cons.mp hb with rfl | hb
      · exact hle
      · exact le_trans (hx b hb) hle
    case isFalse hgt =>
      refine List.pairwise_cons.mpr ⟨?_, ih hxs⟩
      intro b hb
      rcases (mem_insertDesc b r xs).mp hb with rfl | hb
      · exact le_of_not_le hgt
      · exact hx b hb

/-- The resume fetch returns a descending-sorted list. -/
theorem sortedDesc_fetchResumes (rows : List Resume) : sortedDesc (fetchResumes rows) := by
  unfold fetchResumes
  induction rows with
  | nil => exact List.Pairwise.nil
  | cons x xs ih => exact sortedDesc_insertDesc x _ ih

/-- A table whose any-test finds the id yields a fetchable first row with
that id. -/
theorem findProfile_of_any (tbl : List ProfileRow) (uid : String)
    (h : tbl.any (fun r => r.id = uid) = true) :
    ∃ r0, findProfile tbl uid = some r0 ∧ r0.id = uid := by
  induction tbl with
  | nil => simp at h
  | cons x xs ih =>
    by_cases hx : x.id = uid
    · exact ⟨x, by simp [findProfile, List.find?_cons, hx], hx⟩
    · have h' : xs.any (fun r => r.id = uid) = true := by
        simpa [List.any_cons, hx] using h
      obtain ⟨r0, hf, hid⟩ := ih h'
      refine ⟨r0, ?_, hid⟩
      simpa [findProfile, List.find?_cons, hx] using hf

/-- After one authenticated `runUpdateProfile` call the user's row exists:
the any-test succeeds, the fetched row carries the written name, avatar and
instant, and every row with the user id carries exactly those values. -/
theorem runUpdateProfile_first (tbl : List ProfileRow) (u : UserT) (name : String)
    (a : Option String) (t : Nat) :
    ((runUpdateProfile tbl (some u) name a t).1.any (fun r => r.id = u.id) = true) ∧
    (∃ c, findProfile (runUpdateProfile tbl (some u) name a t).1 u.id =
       some ⟨u.id, name, jsOrStr a "", c, t⟩) ∧
    (∀ r ∈ (runUpdateProfile tbl (some u) name a t).1, r.id = u.id →
       r = ⟨u.id, name, jsOrStr a "", r.created_at, t⟩) := by
  rw [runUpdateProfile_some_eq]
  by_cases h : tbl.any (fun r => r.id = u.id)
  · simp only [h, if_true]
    refine ⟨?_, ?_, ?_⟩
    · rw [List.any_map]
      have hc : ((fun r => decide (r.id = u.id)) ∘ profWrite u.id name (jsOrStr a "") t)
          = fun r => decide (r.id = u.id) := by
        funext r; simp [profWrite_id]
      rw [hc]; exact h
    · obtain ⟨r0, hf, hid⟩ := findProfile_of_any tbl u.id h
      refine ⟨r0.created_at, ?_⟩
      rw [findProfile_map_profWrite, hf, Option.map_some']
      obtain ⟨ri, rn, ra, rc, rt⟩ := r0
      simp only at hid
      simp [profWrite, hid]
    · intro r hr hid
      rcases List.mem_map.mp hr with ⟨r0, hr0mem, rfl⟩
      by_cases h0 : r0.id = u.id
      · obtain ⟨ri, rn, ra, rc, rt⟩ := r0
        simp only at h0
        simp [profWrite, h0]
      · rw [profWrite, if_neg h0] at hid
        exact absurd hid h0
  · simp only [h, if_false]
    refine ⟨?_, ⟨t, ?_⟩, ?_⟩
    · simp
    · simp [findProfile, List.find?_cons]
    · intro r hr hid
      rcases List.mem_cons.mp hr with rfl | hr
      · rfl
      · have hall : ∀ x ∈ tbl, ¬ x.id = u.id := by simpa using h
        exact absurd hid (hall r hr)

/-! ## Claims -/

/-- C1: for every authenticated user and every (name, avatarUrl) input,
updateProfile first issues the update filtered by the current user id, and
issues an insert with the same values exactly when the update failed with
error code PGRST116; on update success or any other update error the update
is the only operation issued. -/
theorem updateProfile_insert_iff_pgrst116
    (u : UserT) (name : String) (avatarUrl : Option String) (t : Nat)
    (updErr insErr : Option PGError) :
    (updateProfile (some u) name avatarUrl t updErr insErr).ops =
      if updErr = some ⟨"PGRST116"⟩ then
        [ProfilesOp.update u.id name (jsOrStr avatarUrl "") t,
         ProfilesOp.insert u.id name (jsOrStr avatarUrl "") t t]
      else
        [ProfilesOp.update u.id name (jsOrStr avatarUrl "") t] := by
  cases updErr with
  | none => simp [updateProfile]
  | some e =>
    obtain ⟨c⟩ := e
    by_cases h : c = "PGRST116"
    · simp [updateProfile, h]
    · simp [updateProfile, h]

/-- C4: a successful signUp call returns a null error together with the data
field, and a failing call returns a non-null error and no data field. -/
theorem signUp_result_shape :
    (∀ d, (signUp (.ok d)).error = none ∧ (signUp (.ok d)).data = some d) ∧
    (∀ e, ((signUp (.err e)).error).isSome = true ∧ (signUp (.err e)).data = none) := by
  exact ⟨fun d => ⟨rfl, rfl⟩, fun e => ⟨rfl, rfl⟩⟩

/-- C6: signOut issues no synchronous set-state call, so it leaves the local
user and session unchanged; the auth-state-change handler invoked with a null
session is what sets both the local user and session to null. -/
theorem signOut_clears_state_via_event_only :
    (∀ st, runActions st signOutActions = st) ∧
    (∀ st, (runActions st (authChangeActions none)).user = none ∧
           (runActions st (authChangeActions none)).session = none) := by
  constructor
  · intro st; rfl
  · intro st; exact ⟨rfl, rfl⟩

/-- C8 counterexample: signInWithMagicLink's catch site hands back the raw
caught value, so a thrown plain string is returned without being normalized
into an Error value, contradicting the claim that every exposed operation
normalizes caught exceptions. -/
theorem catch_normalization_cex :
    isErrorObj (magicLinkCatch (.str "network down")) = false ∧
    signOutHasCatch = false := ⟨rfl, rfl⟩

/-- C8 amended: signUp and signIn normalize caught exceptions into Error
values before returning them; signInWithMagicLink and updateProfile catch
exceptions but return the raw thrown value unnormalized; signOut does not
wrap its provider call in a catch at all. -/
theorem catch_handlers_normalization_amended :
    (∀ v, isErrorObj (signUpCatch v) = true) ∧
    (∀ v, isErrorObj (signInCatch v) = true) ∧
    (∀ v, magicLinkCatch v = v) ∧
    (∀ v, updateProfileCatch v = v) ∧
    signOutHasCatch = false := by
  refine ⟨?_, ?_, fun v => rfl, fun v => rfl, rfl⟩ <;> intro v <;> cases v <;> rfl

/-- C9: with no authenticated user, updateProfile returns the plain-string
error "No user found" and issues no store operation; the modelled store is
left untouched. -/
theorem updateProfile_no_user_returns_string_error
    (name : String) (avatarUrl : Option String) (t : Nat)
    (updErr insErr : Option PGError) :
    updateProfile none name avatarUrl t updErr insErr =
      { ops := [], error := some (.strErr "No user found") } ∧
    (∀ tbl, runUpdateProfile tbl none name avatarUrl t =
      (tbl, [], some (.strErr "No user found"))) := by
  exact ⟨rfl, fun tbl => rfl⟩

/-- C2 counterexample: for a user whose metadata name is present but is the
empty string and whose email is x@y.com, the claimed rule yields the
metadata name (the empty string) while the code falls through the falsy
value and yields the email local part x. -/
theorem defaultName_claimed_cex :
    defaultNameClaimed ⟨"u1", some "x@y.com", some "", none⟩ = "" ∧
    defaultName ⟨"u1", some "x@y.com", some "", none⟩ = "x" ∧
    ((defaultNameClaimed ⟨"u1", some "x@y.com", some "", none⟩ ==
      defaultName ⟨"u1", some "x@y.com", some "", none⟩) = false) := by
  refine ⟨rfl, by decide, by decide⟩

/-- C2 amended: on a not-found profile fetch the Dashboard synthesizes and
inserts exactly one default profile whose name is the metadata name when it
is present and non-empty, else the email local part when the email is
present and that part is non-empty, else the literal "User"; in particular
a user with email a@b.com, no metadata name and no prior row is displayed
with name a and email a@b.com. -/
theorem fetchProfile_default_name_amended :
    (∀ u, defaultName u = defaultNameAmended u) ∧
    (∀ (u : UserT) (t : Nat) (prof0 : Option ProfileRow) (name0 : String),
       (fetchUserDataProfile u (.err ⟨"PGRST116"⟩) t none prof0 name0).inserts.map
         ProfileRow.name = [defaultName u]) ∧
    (displayedName (fetchUserDataProfile ⟨"u1", some "a@b.com", none, none⟩
        (.err ⟨"PGRST116"⟩) 0 none none "").profile = "a" ∧
     (UserT.mk "u1" (some "a@b.com") none none).email = some "a@b.com") := by
  refine ⟨?_, ?_, by decide, rfl⟩
  · intro u
    obtain ⟨i, email, metaName, metaAv⟩ := u
    cases metaName with
    | none => cases email <;> simp [defaultName, defaultNameAmended, jsOrStr, emailOrUser]
    | some s =>
      by_cases hs : s = "" <;> cases email <;>
        simp [defaultName, defaultNameAmended, jsOrStr, emailOrUser, hs]
  · intro u t prof0 name0
    simp [fetchUserDataProfile]

/-- C7: the Dashboard applies the optimistic name to the in-memory profile
and leaves edit mode exactly when updateProfile returned without an error;
on any returned error or a thrown value both are left unchanged. -/
theorem handleUpdateProfile_optimistic_on_success
    (user : Option UserT) (n : String) (a : Option String) (t : Nat)
    (updErr insErr : Option PGError) (profile : Option ProfileRow)
    (newName : String) (editing : Bool) :
    (handleUpdateProfile (.returned (updateProfile user n a t updErr insErr).error)
        profile newName editing =
      if (updateProfile user n a t updErr insErr).error = none then
        ((profile.map fun p => { p with name := newName }), false)
      else (profile, editing)) ∧
    (∀ v, handleUpdateProfile (.threw v) profile newName editing =
      (profile, editing)) := by
  refine ⟨?_, fun v => rfl⟩
  cases user with
  | none => rfl
  | some u =>
    cases updErr with
    | none => rfl
    | some e =>
      by_cases h : e.code = "PGRST116"
      · cases insErr <;> simp [updateProfile, handleUpdateProfile, errTruthy, h]
      · simp [updateProfile, handleUpdateProfile, errTruthy, h]

/-- C10: every operation updateProfile issues stores avatar_url equal to the
supplied avatarUrl when it is a non-empty string and the empty string
otherwise; hence after a call that omits avatarUrl every row of the user in
the modelled store carries an empty avatar_url, whatever it held before. -/
theorem updateProfile_avatar_url_default
    (u : UserT) (name : String) (avatarUrl : Option String) (t : Nat)
    (updErr insErr : Option PGError) (tbl : List ProfileRow) :
    ((updateProfile (some u) name avatarUrl t updErr insErr).ops.all
      (fun op => op.avatar == match avatarUrl with
        | some s => if s = "" then "" else s
        | none => "")) = true ∧
    ((runUpdateProfile tbl (some u) name none t).1.all
      (fun r => !(r.id == u.id) || (r.avatar_url == ""))) = true := by
  constructor
  · cases updErr with
    | none => cases avatarUrl <;> simp [updateProfile, jsOrStr, ProfilesOp.avatar]
    | some e =>
      by_cases h : e.code = "PGRST116" <;>
        cases avatarUrl <;>
          simp [updateProfile, jsOrStr, ProfilesOp.avatar, h]
  · rw [runUpdateProfile_some_eq]
    by_cases h : tbl.any (fun r => r.id = u.id)
    · simp only [h, if_true, List.all_map]
      refine List.all_eq_true.mpr ?_
      intro r hr
      by_cases hid : r.id = u.id <;>
        simp [Function.comp, profWrite, jsOrStr, hid]
    · simp only [h, if_false, Bool.not_eq_true]
      refine List.all_eq_true.mpr ?_
      intro r hr
      rcases List.mem_cons.mp hr with rfl | hr
      · simp [jsOrStr]
      · have := (List.any_eq_false.mp (Bool.not_eq_true _ ▸ h)) r hr
        simp only [decide_eq_true_eq] at this
        simp [this]

/-- C3: the in-memory resume list is sorted by created_at descending: the
initial fetch returns a descending-sorted list, and prepending an uploaded
resume whose created_at is strictly later than every existing element's
(with no re-fetch) yields a list still sorted descending. -/
theorem resume_list_sorted_desc :
    (∀ rows, sortedDesc (fetchResumes rows)) ∧
    (∀ (newResume : Resume) (l : List Resume), sortedDesc l →
       (∀ r ∈ l, r.created_at < newResume.created_at) →
       sortedDesc (handleUploadSuccess newResume l)) := by
  refine ⟨sortedDesc_fetchResumes, ?_⟩
  intro nr l hs hlt
  unfold sortedDesc handleUploadSuccess
  exact List.pairwise_cons.mpr ⟨fun r hr => le_of_lt (hlt r hr), hs⟩

/-- A concrete stored resume with creation instant 5. -/
def resumeA : Resume :=
  ⟨1, "u1", "a.pdf", none, "p1", "urlA", 100, "application/pdf", none, "uploaded", 5⟩

/-- A concrete stored resume with creation instant 3. -/
def resumeB : Resume :=
  ⟨2, "u1", "b.pdf", none, "p2", "urlB", 200, "application/pdf", none, "uploaded", 3⟩

/-- A concrete freshly uploaded resume with creation instant 7. -/
def resumeC : Resume :=
  ⟨3, "u1", "c.pdf", none, "p3", "urlC", 300, "application/pdf", none, "uploaded", 7⟩

/-- Witness for C3 at a concrete sorted list and a strictly later upload. -/
theorem resume_list_sorted_desc_witness :
    sortedDesc [resumeA, resumeB] ∧
    (∀ r ∈ [resumeA, resumeB], r.created_at < resumeC.created_at) ∧
    sortedDesc (handleUploadSuccess resumeC [resumeA, resumeB]) :=
  ⟨by unfold sortedDesc; decide, by decide,
   resume_list_sorted_desc.2 resumeC [resumeA, resumeB]
     (by unfold sortedDesc; decide) (by decide)⟩

/-- C5: the first updateProfile call makes the user's row exist whatever the
prior table held; a repeated identical call goes through the update branch
alone, issuing exactly one update and no error, the fetched row after it
equals the last write, and a repeat at the same instant leaves the table
exactly unchanged. -/
theorem updateProfile_idempotent_once_exists
    (tbl : List ProfileRow) (u : UserT) (name : String) (avatarUrl : Option String)
    (t t2 : Nat) :
    (∃ c, findProfile (runUpdateProfile tbl (some u) name avatarUrl t).1 u.id =
            some ⟨u.id, name, jsOrStr avatarUrl "", c, t⟩ ∧
          findProfile (runUpdateProfile (runUpdateProfile tbl (some u) name avatarUrl t).1
              (some u) name avatarUrl t2).1 u.id =
            some ⟨u.id, name, jsOrStr avatarUrl "", c, t2⟩) ∧
    ((runUpdateProfile (runUpdateProfile tbl (some u) name avatarUrl t).1
        (some u) name avatarUrl t2).2 =
      ([.update u.id name (jsOrStr avatarUrl "") t2], none)) ∧
    ((runUpdateProfile (runUpdateProfile tbl (some u) name avatarUrl t).1
        (some u) name avatarUrl t).1 =
      (runUpdateProfile tbl (some u) name avatarUrl t).1) := by
  obtain ⟨hany, ⟨c, hfind⟩, hall⟩ := runUpdateProfile_first tbl u name avatarUrl t
  refine ⟨⟨c, hfind, ?_⟩, ?_, ?_⟩
  · rw [runUpdateProfile_some_eq]
    simp only [hany, if_true]
    rw [findProfile_map_profWrite, hfind, Option.map_some']
    simp [profWrite]
  · rw [runUpdateProfile_some_eq]
    simp [hany]
  · rw [runUpdateProfile_some_eq]
    simp only [hany, if_true]
    have hcong : ∀ r ∈ (runUpdateProfile tbl (some u) name avatarUrl t).1,
        profWrite u.id name (jsOrStr avatarUrl "") t r = id r := by
      intro r hr
      by_cases hid : r.id = u.id
      · have h3 := hall r hr hid
        obtain ⟨ri, rn, ra, rc, rt⟩ := r
        simp only [ProfileRow.mk.injEq] at h3
        obtain ⟨e1, e2, e3, -, e5⟩ := h3
        subst e1; subst e2; subst e3; subst e5
        simp [profWrite]
      · simp [profWrite, hid]
    rw [List.map_congr_left hcong, List.map_id]

end ResumeTailor
